import Mathlib

/-!
Verification of the SML/NJ code-object layer (`code-object.hxx`).

The `CodeObject` class mediates between LLVM-generated object files and
SML/NJ in-memory code objects.  We give a shallow embedding of its data
model and operations: the LLVM object-file reader is abstracted into
plain data (`SectionRef`, `ObjectFile`), the target-specific virtual
hooks become fields of a `target_info` record, and the member functions
defined in the header (`_includeSect`, `_relocationSect`,
`Section::relocations`, `size`) are translated directly.  Member
functions that the header only declares (`_computeSize`, `create`,
`getCode`, `_resolveRelocs`) are modelled from the specification.
-/

namespace CodeObj

/-- A relocation record as exposed by the object reader: an offset within
the section it patches, an architecture-specific numeric type code, and
the blob-relative target offset of the referenced symbol or section. -/
structure Reloc where
  offset : Nat
  type : Nat
  target : Nat
  deriving DecidableEq

/-- The patch semantics the target policy assigns to a recognized
relocation type code: the width in bytes of the patched field and whether
the patch is PC-relative (value relative to the patch location) or
absolute (value relative to the destination base address). -/
structure RelocKind where
  width : Nat
  isPCRel : Bool
  deriving DecidableEq

/-- A section of the parsed object file, as exposed by the object reader:
name, kind flags (text / data), address, index, raw contents (bytes),
attached relocation records, and the result of
`SectionRef::getRelocatedSection()` — `none` models an `Expected`
failure, `some none` models `section_end()`, and `some (some i)` models
an iterator referencing the section at index `i`. -/
structure SectionRef where
  name : String
  isText : Bool
  isData : Bool
  addr : Nat
  index : Nat
  contents : List Nat
  relocs : List Reloc
  relocatedSection : Option (Option Nat)
  deriving DecidableEq

/-- The size of a section in bytes (`SectionRef::getSize`). -/
def SectionRef.getSize (s : SectionRef) : Nat := s.contents.length

/-- A parsed object file: the ordered sequence of its sections. -/
structure ObjectFile where
  sections : List SectionRef
  deriving DecidableEq

/-- The target descriptor together with the target-specific virtual
hooks of the concrete `CodeObject` subclass: word size in bytes,
the data-section inclusion policy `_includeDataSect`, the relocation
classifier used by `_resolveRelocs` (`none` = unrecognized type code),
and the diagnostic name mapping `_relocTypeToString`. -/
structure target_info where
  wordSzB : Nat
  _includeDataSect : SectionRef → Bool
  relocKind : Nat → Option RelocKind
  _relocTypeToString : Nat → String

/-- The input to the factory operation `CodeObject::create`: a compiled
buffer from which a target policy is selected (`none` when the
architecture is unrecognized) and an object file is parsed (`none` when
the object format is unrecognized). -/
structure code_buffer where
  target : Option target_info
  parsed : Option ObjectFile

/-- The struct `CodeObject::Section`: a primary section view `sect`, the
flag `separateRelocSec` marking that the relocation info for `sect` is
in a separate section, and the separate view `reloc`.  The C++ field
`reloc` is left default-constructed by the one-argument constructor; we
model the unset state as `none`, so that reading it while the flag is
unset is visibly meaningless. -/
structure Section where
  sect : SectionRef
  separateRelocSec : Bool
  reloc : Option SectionRef
  deriving DecidableEq

/-- The one-argument constructor `Section(SectionRef &s)`: primary view
`s`, `separateRelocSec` initialized to `false`, `reloc` left unset. -/
def Section.mk1 (s : SectionRef) : Section :=
  { sect := s, separateRelocSec := false, reloc := none }

/-- The two-argument constructor `Section(SectionRef &s, SectionRef &r)`:
primary view `s`, `separateRelocSec` initialized to `true`, `reloc`
initialized to `r`. -/
def Section.mkSep (s r : SectionRef) : Section :=
  { sect := s, separateRelocSec := true, reloc := some r }

/-- The member `Section::getName`: the primary section's name. -/
def Section.getName (s : Section) : String := s.sect.name

/-- The member `Section::getAddress`: the primary section's address. -/
def Section.getAddress (s : Section) : Nat := s.sect.addr

/-- The member `Section::getIndex`: the primary section's index. -/
def Section.getIndex (s : Section) : Nat := s.sect.index

/-- The member `Section::getSize`: the primary section's size. -/
def Section.getSize (s : Section) : Nat := s.sect.getSize

/-- The member `Section::getContents`: the primary section's contents. -/
def Section.getContents (s : Section) : List Nat := s.sect.contents

/-- The member `Section::relocations`: when `separateRelocSec` is set,
returns the relocation iterator of the separate reloc view, otherwise
the primary section's own relocation iterator.  Reading the unset
`reloc` field yields `none`, the model of the undefined access. -/
def Section.relocations (s : Section) : Option (List Reloc) :=
  if s.separateRelocSec then s.reloc.map SectionRef.relocs
  else some s.sect.relocs

/-- The `CodeObject` state: the target descriptor `_tgt`, the owned
object file `_obj`, the precomputed size `_szb`, and the vector of
included sections `_sects`. -/
structure CodeObject where
  _tgt : target_info
  _obj : ObjectFile
  _szb : Nat
  _sects : List Section

/-- The member `CodeObject::size`: returns the precomputed `_szb`. -/
def CodeObject.size (co : CodeObject) : Nat := co._szb

/-- The member `CodeObject::_includeSect`: a section is included when it
is a text section, or it is a data section approved by the
target-specific policy `_includeDataSect`. -/
def _includeSect (tgt : target_info) (sect : SectionRef) : Bool :=
  sect.isText || (sect.isData && tgt._includeDataSect sect)

/-- The member `CodeObject::_relocationSect`: checks whether `sect`
contains relocation info for an included section.  It asks the reader
for the relocated section; when that lookup succeeds, is not
`section_end()`, and the referenced section passes `_includeSect`, it
returns the iterator (modelled as `some` of the section index);
otherwise it returns `section_end()` (modelled as `none`). -/
def _relocationSect (tgt : target_info) (obj : ObjectFile)
    (sect : SectionRef) : Option Nat :=
  match sect.relocatedSection with
  | some (some i) =>
    match obj.sections[i]? with
    | some s => if _includeSect tgt s then some i else none
    | none => none
  | _ => none

/-- Rounds `n` up to the next multiple of `w` (word-size alignment
between consecutive sections). -/
def alignUp (n w : Nat) : Nat :=
  if w = 0 then n else ((n + w - 1) / w) * w

/-- Accumulates a list of section sizes in order, inserting word-size
alignment padding between consecutive sections: each section starts at
the accumulated total rounded up to the alignment `w`. -/
def sumAligned (w : Nat) (sizes : List Nat) : Nat :=
  sizes.foldl (fun acc n => alignUp acc w + n) 0

/-- Modelled from the spec: the pairing step of the section-selection
algorithm (§4.1), whose implementation `_computeSize` is only declared
in the header.  For an included section `s`, determine whether its
relocation records live in a physically separate section by searching
the object file for a section whose `_relocationSect` result references
`s`; if found, pair it as the separate-reloc view with the two-argument
constructor, otherwise use the one-argument constructor so relocations
are read directly from the primary section. -/
def _pairSect (tgt : target_info) (obj : ObjectFile) (s : SectionRef) :
    Section :=
  match obj.sections.find? (fun r => _relocationSect tgt obj r = some s.index) with
  | some r => Section.mkSep s r
  | none => Section.mk1 s

/-- Modelled from the spec: `_computeSize` is declared but not defined in
the header.  Per §4.1, walk every section of the object file in its
natural order; a section is included exactly when `_includeSect` accepts
it; each included section is paired with its separate relocation section
when one exists; the total size accumulates the included sections' sizes
with word-size alignment padding between consecutive sections.  Returns
the `_sects` vector and the `_szb` total. -/
def _computeSize (tgt : target_info) (obj : ObjectFile) :
    List Section × Nat :=
  let sects := (obj.sections.filter (_includeSect tgt)).map (_pairSect tgt obj)
  (sects, sumAligned tgt.wordSzB (sects.map (fun s => s.sect.getSize)))

/-- Overwrites the bytes of `d` starting at offset `off` with the bytes
of `bs`, truncated to `d`'s length; positions outside the written range
keep their previous value. -/
def writeBytes (d : List Nat) (off : Nat) (bs : List Nat) : List Nat :=
  (List.range d.length).map (fun i =>
    if off ≤ i ∧ i < off + bs.length then bs.getD (i - off) 0 else d.getD i 0)

/-- Serializes the low `w` bytes of `v` in little-endian order, the byte
order in which a patch value of width `w` is written into the code. -/
def natToBytesLE : Nat → Nat → List Nat
  | 0, _ => []
  | w + 1, v => (v % 256) :: natToBytesLE w (v / 256)

/-- Modelled from the spec: the patch value of one relocation entry
(§4.2).  For a PC-relative type the value is the target's address minus
the patch location's own eventual address, so the destination base
cancels; for an absolute type it is the destination base plus the
blob-relative target offset.  The value is reduced to the patched
field's width. -/
def patchValue (base loc : Nat) (k : RelocKind) (target : Nat) : Nat :=
  if k.isPCRel then
    (((target : Int) - (loc : Int)) % ((2 : Int) ^ (8 * k.width))).toNat
  else (base + target) % 2 ^ (8 * k.width)

/-- The relocation records of an included `Section`, read through
`Section::relocations` (defaulting to the empty list on the undefined
unset-view access, which is unreachable for constructor-built values). -/
def relocsOf (sec : Section) : List Reloc :=
  sec.relocations.getD []

/-- Modelled from the spec: the per-entry loop of `_resolveRelocs`
(§4.2), which is a pure virtual hook.  Each relocation entry's type code
is classified by the target policy; an unrecognized type code is a
fatal, non-recoverable failure whose message names the offending type
via `_relocTypeToString`, and no patch is written for it; a recognized
entry has its patch value written at the entry's offset (relative to the
section's assigned offset `secOff`) with the type's width. -/
def resolveLoop (tgt : target_info) (base secOff : Nat) :
    List Reloc → List Nat → Except String (List Nat)
  | [], code => .ok code
  | r :: rs, code =>
    match tgt.relocKind r.type with
    | none => .error ("unknown relocation type: " ++ tgt._relocTypeToString r.type)
    | some k =>
      resolveLoop tgt base secOff rs
        (writeBytes code (secOff + r.offset)
          (natToBytesLE k.width (patchValue base (secOff + r.offset) k r.target)))

/-- Modelled from the spec: `_resolveRelocs` patches the just-copied
bytes of one section in place, resolving every relocation entry attached
to the section (through `Section::relocations`); it fails fatally on the
first unrecognized relocation type. -/
def _resolveRelocs (tgt : target_info) (base secOff : Nat) (sec : Section)
    (code : List Nat) : Except String (List Nat) :=
  resolveLoop tgt base secOff (relocsOf sec) code

/-- Modelled from the spec: the offset assignment of §4.1 — each included
section's offset in the blob is the accumulated total rounded up to the
target's word size, in insertion order.  Returns the `(offset, section)`
pairs. -/
def _offsets (w : Nat) (sects : List Section) : List (Nat × Section) :=
  (sects.foldl
    (fun (acc : Nat × List (Nat × Section)) s =>
      let off := alignUp acc.1 w
      (off + s.sect.getSize, acc.2 ++ [(off, s)]))
    (0, [])).2

/-- Modelled from the spec: the per-section loop of `getCode` (§4.1).
For each included section, in insertion order, copy its raw bytes to the
destination at its assigned offset, then invoke the relocation resolver
for that section to patch the just-copied bytes in place; a fatal
resolver failure aborts the whole call. -/
def copyLoop (tgt : target_info) (base : Nat) :
    List (Nat × Section) → List Nat → Except String (List Nat)
  | [], d => .ok d
  | p :: ps, d =>
    match _resolveRelocs tgt base p.1 p.2 (writeBytes d p.1 p.2.sect.contents) with
    | .error e => .error e
    | .ok d' => copyLoop tgt base ps d'

/-- Modelled from the spec: `CodeObject::getCode` is declared but not
defined in the header.  The destination is assumed to hold at least
`size()` bytes and to sit at base address `base`.  The blob region of
the destination is first zero-filled (so alignment padding bytes are
deterministic and materialized content is byte-identical across
destinations, §8), then each included section is copied and patched in
insertion order.  The call mutates only the destination; the returned
`CodeObject` component is the object's state after the call. -/
def CodeObject.getCode (co : CodeObject) (base : Nat) (dest : List Nat) :
    Except String (CodeObject × List Nat) :=
  match copyLoop co._tgt base (_offsets co._tgt.wordSzB co._sects)
      (writeBytes dest 0 (List.replicate co._szb 0)) with
  | .error e => .error e
  | .ok out => .ok (co, out)

/-- The `(start, width)` footprints of the absolute (non-PC-relative)
recognized relocation patches of a code object, the only byte ranges of
the blob whose materialized value depends on the destination base. -/
def absEntries (co : CodeObject) : List (Nat × Nat) :=
  (_offsets co._tgt.wordSzB co._sects).flatMap (fun p =>
    (relocsOf p.2).filterMap (fun r =>
      match co._tgt.relocKind r.type with
      | some k => if k.isPCRel then none else some (p.1 + r.offset, k.width)
      | none => none))

/-- Decides whether blob position `i` lies inside the footprint of some
absolute relocation patch of `co`. -/
def inAbsFootprint (co : CodeObject) (i : Nat) : Bool :=
  (absEntries co).any (fun e => e.1 ≤ i && i < e.1 + e.2)

/-- Modelled from the spec: the factory `CodeObject::create` is declared
but not defined in the header.  It selects the target policy from the
buffer's target descriptor and parses the buffer; if either the object
format or the target architecture is unrecognized it fails, yielding no
object; otherwise it constructs the instance and immediately runs
`_computeSize`, so the returned object is fully sized. -/
def create (buf : code_buffer) : Option CodeObject :=
  match buf.target, buf.parsed with
  | some tgt, some obj =>
    let cs := _computeSize tgt obj
    some { _tgt := tgt, _obj := obj, _szb := cs.2, _sects := cs.1 }
  | _, _ => none

/-- Pointwise agreement of two byte buffers at every position that the
predicate `P` selects (plus equal length); the invariant preserved by
the copy/patch loops of `getCode` across two runs. -/
def Agree (P : Nat → Prop) (d1 d2 : List Nat) : Prop :=
  d1.length = d2.length ∧ ∀ i, P i → d1[i]? = d2[i]?

/-- An example target policy: 8-byte words, data sections included
unless they are debug info, relocation type 1 = absolute 8-byte patch,
type 2 = PC-relative 4-byte patch, all other type codes unrecognized. -/
def tgtEx : target_info where
  wordSzB := 8
  _includeDataSect := fun s => s.name ≠ ".debug_info"
  relocKind := fun t =>
    if t = 1 then some ⟨8, false⟩
    else if t = 2 then some ⟨4, true⟩
    else none
  _relocTypeToString := fun t => "R." ++ toString t

/-- An example text section: 16 bytes with one absolute 8-byte
relocation at offset 4 targeting blob offset 16. -/
def textSec : SectionRef :=
  ⟨".text", true, false, 0, 0,
   [10, 11, 12, 13, 14, 15, 16, 17, 18, 19, 20, 21, 22, 23, 24, 25],
   [⟨4, 1, 16⟩], some none⟩

/-- An example read-only data section of 8 bytes with no relocations. -/
def dataSec : SectionRef :=
  ⟨".rodata", false, true, 16, 1, [1, 2, 3, 4, 5, 6, 7, 8], [], some none⟩

/-- An example debug-info data section, rejected by `tgtEx`'s policy. -/
def debugSec : SectionRef :=
  ⟨".debug_info", false, true, 24, 2, [9, 9], [], some none⟩

/-- An example section that is neither text nor data. -/
def junkSec : SectionRef :=
  ⟨".comment", false, false, 0, 3, [7], [], some none⟩

/-- An example separate relocation section (index 1) carrying a
PC-relative relocation for the section at index 0. -/
def relocSec : SectionRef :=
  ⟨".rela.text", false, false, 0, 1, [], [⟨0, 2, 8⟩], some (some 0)⟩

/-- An example object file: text, data, and a rejected debug section. -/
def objEx : ObjectFile := ⟨[textSec, dataSec, debugSec]⟩

/-- An example object file whose text section's relocations live in a
separate relocation section. -/
def objEx2 : ObjectFile := ⟨[textSec, relocSec]⟩

/-- An example code buffer recognized by both the format parser and the
target selector. -/
def bufEx : code_buffer := ⟨some tgtEx, some objEx⟩

/-- An example code buffer with an unrecognized target architecture. -/
def bufBad : code_buffer := ⟨none, some objEx⟩

/-- The code object that `create` builds from `bufEx`. -/
def coEx : CodeObject where
  _tgt := tgtEx
  _obj := objEx
  _szb := (_computeSize tgtEx objEx).2
  _sects := (_computeSize tgtEx objEx).1

/-- A code object with no sections, over an empty object file. -/
def coEmpty : CodeObject where
  _tgt := tgtEx
  _obj := ⟨[]⟩
  _szb := 0
  _sects := []

/-- An example `Section` carrying an unrecognized relocation type
(type code 99), for exercising the fatal path of `_resolveRelocs`. -/
def badSec : Section :=
  Section.mk1 ⟨".text", true, false, 0, 0, [0, 0, 0, 0], [⟨0, 99, 0⟩], some none⟩

theorem create_some_spec (buf : code_buffer) (co : CodeObject)
    (h : create buf = some co) :
    buf.target = some co._tgt ∧ buf.parsed = some co._obj
    ∧ co._szb = (_computeSize co._tgt co._obj).2
    ∧ co._sects = (_computeSize co._tgt co._obj).1 := by
  cases hb : buf.target with
  | none => rw [create, hb] at h; exact absurd h (by simp)
  | some tgt =>
    cases hp : buf.parsed with
    | none => rw [create, hb, hp] at h; exact absurd h (by simp)
    | some obj =>
      rw [create, hb, hp] at h
      simp only [Option.some.injEq] at h
      subst h
      exact ⟨rfl, rfl, rfl, rfl⟩

theorem getCode_ok_state (co : CodeObject) (base : Nat) (dest : List Nat)
    (co' : CodeObject) (out : List Nat)
    (h : co.getCode base dest = .ok (co', out)) : co' = co := by
  unfold CodeObject.getCode at h
  cases hcl : copyLoop co._tgt base (_offsets co._tgt.wordSzB co._sects)
      (writeBytes dest 0 (List.replicate co._szb 0)) with
  | error e => rw [hcl] at h; exact absurd h (by simp)
  | ok d => rw [hcl] at h; simp at h; exact h.1.symm

/-- Claim C2: `_includeSect` holds exactly when the section is text, or
is data approved by the target's `_includeDataSect` policy; and the
policy is consulted only for data sections — for a non-data section the
verdict is independent of the policy. -/
theorem C2_includeSect (tgt : target_info) (s : SectionRef) :
    (_includeSect tgt s = true ↔
      s.isText = true ∨ (s.isData = true ∧ tgt._includeDataSect s = true))
    ∧ (∀ p q : SectionRef → Bool, s.isData = false →
        _includeSect { tgt with _includeDataSect := p } s
          = _includeSect { tgt with _includeDataSect := q } s) := by
  constructor
  · simp [_includeSect]
  · intro p q h
    simp [_includeSect, h]

/-- Witness for C2 at the non-text, non-data section `junkSec`: two
targets with opposite data policies agree on it. -/
theorem C2_includeSect_witness :
    junkSec.isData = false
    ∧ _includeSect { tgtEx with _includeDataSect := fun _ => true } junkSec
        = _includeSect { tgtEx with _includeDataSect := fun _ => false } junkSec :=
  ⟨rfl, (C2_includeSect tgtEx junkSec).2 (fun _ => true) (fun _ => false) rfl⟩

/-- Claim C3: when `separateRelocSec` is set, `Section::relocations`
returns the relocation iterator of the separate reloc view (the `reloc`
field, independent of the primary view); when unset, it returns the
primary section's own relocation iterator. -/
theorem C3_relocations (sec : Section) :
    (sec.separateRelocSec = true →
      sec.relocations = sec.reloc.map SectionRef.relocs)
    ∧ (sec.separateRelocSec = false →
      sec.relocations = some sec.sect.relocs)
    ∧ (∀ s r : SectionRef, (Section.mkSep s r).relocations = some r.relocs)
    ∧ (∀ s s' r : SectionRef,
        (Section.mkSep s r).relocations = (Section.mkSep s' r).relocations)
    ∧ (∀ s : SectionRef, (Section.mk1 s).relocations = some s.relocs) := by
  refine ⟨fun h => ?_, fun h => ?_, fun s r => rfl, fun s s' r => rfl, fun s => rfl⟩
  · simp [Section.relocations, h]
  · simp [Section.relocations, h]

/-- Witness for C3 at a section with the flag set and one with it
unset. -/
theorem C3_relocations_witness :
    (Section.mkSep textSec relocSec).relocations
      = (Section.mkSep textSec relocSec).reloc.map SectionRef.relocs
    ∧ (Section.mk1 dataSec).relocations = some dataSec.relocs :=
  ⟨(C3_relocations (Section.mkSep textSec relocSec)).1 rfl,
   (C3_relocations (Section.mk1 dataSec)).2.1 rfl⟩

/-- Claim C10: the one-argument constructor leaves `separateRelocSec`
false with `reloc` unset, the two-argument constructor sets the flag and
stores the supplied section; every other `Section` operation is a
function of the primary view alone (it never reads `reloc`), and
`relocations` on any constructor-built value never performs the
undefined unset-view access. -/
theorem C10_section_safety (s r : SectionRef) (o : Option SectionRef) (b : Bool) :
    (Section.mk1 s).separateRelocSec = false
    ∧ (Section.mk1 s).reloc = none
    ∧ (Section.mkSep s r).separateRelocSec = true
    ∧ (Section.mkSep s r).reloc = some r
    ∧ Section.relocations ⟨s, false, o⟩ = some s.relocs
    ∧ Section.getName ⟨s, b, o⟩ = s.name
    ∧ Section.getAddress ⟨s, b, o⟩ = s.addr
    ∧ Section.getIndex ⟨s, b, o⟩ = s.index
    ∧ Section.getSize ⟨s, b, o⟩ = s.getSize
    ∧ Section.getContents ⟨s, b, o⟩ = s.contents
    ∧ (Section.mk1 s).relocations.isSome = true
    ∧ (Section.mkSep s r).relocations.isSome = true :=
  ⟨rfl, rfl, rfl, rfl, rfl, rfl, rfl, rfl, rfl, rfl, rfl, rfl⟩

/-- Claim C6: `create` fails, yielding no object at all, whenever the
target architecture or the object format is unrecognized; and any object
it does return is fully constructed, its `_szb` and `_sects` being
exactly the result of `_computeSize` on its target and object file. -/
theorem C6_create (buf : code_buffer) :
    ((buf.target = none ∨ buf.parsed = none) → create buf = none)
    ∧ (∀ co, create buf = some co →
        buf.target = some co._tgt ∧ buf.parsed = some co._obj
        ∧ co._szb = (_computeSize co._tgt co._obj).2
        ∧ co._sects = (_computeSize co._tgt co._obj).1) := by
  constructor
  · rintro (h | h) <;> cases hb : buf.target <;> cases hp : buf.parsed <;>
      simp_all [create]
  · intro co h
    exact create_some_spec buf co h

/-- Witness for C6: a buffer with unrecognized architecture yields no
object; the recognized buffer `bufEx` yields a fully sized object. -/
theorem C6_create_witness :
    create bufBad = none
    ∧ (bufEx.target = some coEx._tgt ∧ bufEx.parsed = some coEx._obj
        ∧ coEx._szb = (_computeSize coEx._tgt coEx._obj).2
        ∧ coEx._sects = (_computeSize coEx._tgt coEx._obj).1) :=
  ⟨(C6_create bufBad).1 (Or.inl rfl), (C6_create bufEx).2 coEx rfl⟩

/-- Claim C7: `getCode` mutates only the destination: the code object's
own state — `_tgt`, `_obj`, `_szb` and `_sects` — is identical before
and after the call. -/
theorem C7_getCode_frame (co : CodeObject) (base : Nat) (dest : List Nat)
    (co' : CodeObject) (out : List Nat)
    (h : co.getCode base dest = .ok (co', out)) :
    co' = co ∧ co'._tgt = co._tgt ∧ co'._obj = co._obj
    ∧ co'._szb = co._szb ∧ co'._sects = co._sects := by
  have he := getCode_ok_state co base dest co' out h
  exact ⟨he, by rw [he], by rw [he], by rw [he], by rw [he]⟩

/-- Witness for C7: a concrete `getCode` run on `coEx` returns the same
object state. -/
theorem C7_getCode_frame_witness :
    CodeObject.getCode coEx 0 (List.replicate 24 0)
      = .ok (coEx, [10, 11, 12, 13, 16, 0, 0, 0, 0, 0, 0, 0, 22, 23, 24, 25,
                    1, 2, 3, 4, 5, 6, 7, 8])
    ∧ coEx = coEx :=
  ⟨rfl, (C7_getCode_frame coEx 0 (List.replicate 24 0) coEx _ rfl).1⟩

/-- Claim C9: for a created object, `_szb` is exactly the value
`_computeSize` produced at construction; `size()` returns that
precomputed value, returns the same value on every call, and `getCode`
leaves it unchanged. -/
theorem C9_size_once (buf : code_buffer) (co : CodeObject)
    (h : create buf = some co) :
    co._szb = (_computeSize co._tgt co._obj).2
    ∧ co.size = co._szb
    ∧ co.size = co.size
    ∧ (∀ base dest co' out, co.getCode base dest = .ok (co', out) →
        co'.size = co.size) := by
  refine ⟨(create_some_spec buf co h).2.2.1, rfl, rfl, ?_⟩
  intro base dest co' out hg
  rw [getCode_ok_state co base dest co' out hg]

/-- Witness for C9: the object created from `bufEx` has the size that
`_computeSize` assigned, and a concrete `getCode` run preserves it. -/
theorem C9_size_once_witness :
    create bufEx = some coEx
    ∧ (coEx._szb = (_computeSize coEx._tgt coEx._obj).2
        ∧ coEx.size = coEx._szb
        ∧ coEx.size = coEx.size
        ∧ ∀ base dest co' out, coEx.getCode base dest = .ok (co', out) →
            co'.size = coEx.size) :=
  ⟨rfl, C9_size_once bufEx coEx rfl⟩



theorem resolveLoop_unknown (tgt : target_info) (base secOff : Nat) :
    ∀ (rs : List Reloc) (code : List Nat),
      (∃ r ∈ rs, tgt.relocKind r.type = none) →
      ∃ r ∈ rs, tgt.relocKind r.type = none ∧
        resolveLoop tgt base secOff rs code =
          .error ("unknown relocation type: " ++ tgt._relocTypeToString r.type) := by
  intro rs
  induction rs with
  | nil => intro code h; exact absurd h (by simp)
  | cons r rs ih =>
    intro code h
    cases hk : tgt.relocKind r.type with
    | none =>
      exact ⟨r, List.mem_cons_self r rs, hk, by rw [resolveLoop, hk]⟩
    | some k =>
      have hrs : ∃ r' ∈ rs, tgt.relocKind r'.type = none := by
        rcases h with ⟨r', hr', hn⟩
        rcases List.mem_cons.mp hr' with he | hm
        · rw [he] at hn; rw [hn] at hk; exact absurd hk (by simp)
        · exact ⟨r', hm, hn⟩
      rcases ih (writeBytes code (secOff + r.offset)
          (natToBytesLE k.width
            (patchValue base (secOff + r.offset) k r.target))) hrs with
        ⟨r', hr', hn, herr⟩
      exact ⟨r', List.mem_cons_of_mem r hr', hn, by rw [resolveLoop, hk]; exact herr⟩

/-- Claim C5: a relocation entry whose type code the target policy does
not recognize makes `_resolveRelocs` fail fatally, with a message that
names the offending type via `_relocTypeToString`; no patched buffer is
ever returned, so no default or wrong patch value reaches the code
bytes. -/
theorem C5_unknown_reloc_fatal (tgt : target_info) (base secOff : Nat)
    (sec : Section) (code : List Nat)
    (h : ∃ r ∈ relocsOf sec, tgt.relocKind r.type = none) :
    ∃ r ∈ relocsOf sec, tgt.relocKind r.type = none ∧
      _resolveRelocs tgt base secOff sec code =
        .error ("unknown relocation type: " ++ tgt._relocTypeToString r.type) ∧
      ∀ out, _resolveRelocs tgt base secOff sec code ≠ .ok out := by
  rcases resolveLoop_unknown tgt base secOff (relocsOf sec) code h with
    ⟨r, hr, hn, herr⟩
  refine ⟨r, hr, hn, ?_, ?_⟩
  · rw [_resolveRelocs]; exact herr
  · intro out hok
    rw [_resolveRelocs] at hok
    rw [herr] at hok
    exact absurd hok (by simp)

/-- Witness for C5: the section `badSec` carries a relocation of the
unrecognized type 99, and resolving it fails with a message naming
`R.99`. -/
theorem C5_unknown_reloc_fatal_witness :
    ∃ r ∈ relocsOf badSec, tgtEx.relocKind r.type = none ∧
      _resolveRelocs tgtEx 0 0 badSec [0, 0, 0, 0] =
        .error ("unknown relocation type: " ++ tgtEx._relocTypeToString r.type) ∧
      ∀ out, _resolveRelocs tgtEx 0 0 badSec [0, 0, 0, 0] ≠ .ok out :=
  C5_unknown_reloc_fatal tgtEx 0 0 badSec [0, 0, 0, 0]
    ⟨⟨0, 99, 0⟩, by decide, rfl⟩

theorem pairSect_sect (tgt : target_info) (obj : ObjectFile)
    (s : SectionRef) : (_pairSect tgt obj s).sect = s := by
  unfold _pairSect
  cases obj.sections.find?
      (fun r => _relocationSect tgt obj r = some s.index) <;> rfl

theorem computeSize_sects (tgt : target_info) (obj : ObjectFile) :
    (_computeSize tgt obj).1.map Section.sect
      = obj.sections.filter (_includeSect tgt) := by
  unfold _computeSize
  simp only [List.map_map]
  have h : ∀ s ∈ obj.sections.filter (_includeSect tgt),
      (Section.sect ∘ _pairSect tgt obj) s = s :=
    fun s _ => pairSect_sect tgt obj s
  rw [List.map_congr_left h]
  exact List.map_id' _

theorem computeSize_szb (tgt : target_info) (obj : ObjectFile) :
    (_computeSize tgt obj).2 = sumAligned tgt.wordSzB
      ((obj.sections.filter (_includeSect tgt)).map SectionRef.getSize) := by
  unfold _computeSize
  simp only [List.map_map]
  have h : ∀ s ∈ obj.sections.filter (_includeSect tgt),
      ((fun s : Section => s.sect.getSize) ∘ _pairSect tgt obj) s
        = SectionRef.getSize s :=
    fun s _ => by
      show (_pairSect tgt obj s).sect.getSize = s.getSize
      rw [pairSect_sect]
  rw [List.map_congr_left h]

/-- Claim C1: for a created code object, `size()` is the sum, in
section-insertion order with target-word-size alignment padding between
consecutive sections, of the sizes of exactly the sections accepted by
`_includeSect` (text, or data approved by the target policy); the
primary views of `_sects` are exactly those sections in object-file
order, and a section failing both tests never appears in `_sects`. -/
theorem C1_size_sum (buf : code_buffer) (co : CodeObject)
    (h : create buf = some co) :
    co._sects.map Section.sect = co._obj.sections.filter (_includeSect co._tgt)
    ∧ co.size = sumAligned co._tgt.wordSzB
        ((co._obj.sections.filter (_includeSect co._tgt)).map SectionRef.getSize)
    ∧ (∀ s ∈ co._obj.sections, _includeSect co._tgt s = false →
        ∀ sec ∈ co._sects, sec.sect ≠ s) := by
  rcases create_some_spec buf co h with ⟨-, -, hsz, hsects⟩
  have hmap : co._sects.map Section.sect
      = co._obj.sections.filter (_includeSect co._tgt) := by
    rw [hsects]; exact computeSize_sects co._tgt co._obj
  refine ⟨hmap, ?_, ?_⟩
  · show co._szb = _
    rw [hsz]
    exact computeSize_szb co._tgt co._obj
  · intro s hs hns sec hsec he
    have hmem : sec.sect ∈ co._sects.map Section.sect :=
      List.mem_map_of_mem Section.sect hsec
    rw [hmap, he] at hmem
    have hp := List.of_mem_filter hmem
    rw [hns] at hp
    exact absurd hp (by simp)

/-- Witness for C1 at `bufEx`/`coEx`: the debug section is excluded, the
included primaries are the text and data sections, and `size()` is the
aligned sum 24. -/
theorem C1_size_sum_witness :
    (coEx._sects.map Section.sect
        = coEx._obj.sections.filter (_includeSect coEx._tgt)
      ∧ coEx.size = sumAligned coEx._tgt.wordSzB
          ((coEx._obj.sections.filter (_includeSect coEx._tgt)).map
            SectionRef.getSize)
      ∧ ∀ s ∈ coEx._obj.sections, _includeSect coEx._tgt s = false →
          ∀ sec ∈ coEx._sects, sec.sect ≠ s)
    ∧ coEx.size = 24 :=
  ⟨C1_size_sum bufEx coEx rfl, rfl⟩

/-- Claim C4: `_relocationSect` returns a section iterator exactly when
the reader locates a relocated section (the lookup succeeds and is not
`section_end()`) and that located section is verified includable; in
every other case — no relocated section, lookup failure, or verification
failure — it returns `section_end()`.  During section selection, a
`Section` is paired with a separate-reloc view only through a successful
`_relocationSect` check referencing it; any unpaired `Section` reads
relocations directly from its primary section. -/
theorem C4_relocation_sect (tgt : target_info) (obj : ObjectFile)
    (sect : SectionRef) :
    (∀ i, _relocationSect tgt obj sect = some i ↔
      (sect.relocatedSection = some (some i)
        ∧ ∃ s, obj.sections[i]? = some s ∧ _includeSect tgt s = true))
    ∧ (∀ sec ∈ (_computeSize tgt obj).1, sec.separateRelocSec = true →
        ∃ r, sec.reloc = some r ∧ r ∈ obj.sections
          ∧ _relocationSect tgt obj r = some sec.sect.index)
    ∧ (∀ sec ∈ (_computeSize tgt obj).1, sec.separateRelocSec = false →
        sec.relocations = some sec.sect.relocs) := by
  refine ⟨?_, ?_, ?_⟩
  · intro i
    constructor
    · intro h
      rw [_relocationSect] at h
      split at h
      next j heq =>
        split at h
        next s hs =>
          split at h
          next hinc =>
            obtain rfl : j = i := by simpa using h
            exact ⟨heq, s, hs, hinc⟩
          next hninc => exact absurd h (by simp)
        next hs => exact absurd h (by simp)
      next hne => exact absurd h (by simp)
    · rintro ⟨h1, s, h2, h3⟩
      simp [_relocationSect, h1, h2, h3]
  · intro sec hmem hflag
    have hmem' : sec ∈ (obj.sections.filter (_includeSect tgt)).map
        (_pairSect tgt obj) := hmem
    rcases List.mem_map.mp hmem' with ⟨a, ha, hpair⟩
    cases hf : obj.sections.find?
        (fun r => _relocationSect tgt obj r = some a.index) with
    | none =>
      rw [_pairSect, hf] at hpair
      rw [← hpair] at hflag
      exact absurd hflag (by simp [Section.mk1])
    | some r =>
      rw [_pairSect, hf] at hpair
      have hp := List.find?_some hf
      have hr : _relocationSect tgt obj r = some a.index := of_decide_eq_true hp
      refine ⟨r, ?_, List.mem_of_find?_eq_some hf, ?_⟩
      · rw [← hpair]; rfl
      · rw [← hpair]; exact hr
  · intro sec hmem hflag
    have hmem' : sec ∈ (obj.sections.filter (_includeSect tgt)).map
        (_pairSect tgt obj) := hmem
    rcases List.mem_map.mp hmem' with ⟨a, ha, hpair⟩
    cases hf : obj.sections.find?
        (fun r => _relocationSect tgt obj r = some a.index) with
    | none =>
      rw [_pairSect, hf] at hpair
      rw [← hpair]
      rfl
    | some r =>
      rw [_pairSect, hf] at hpair
      rw [← hpair] at hflag
      exact absurd hflag (by simp [Section.mkSep])

/-- Witness for C4 at `objEx2`: the separate relocation section is
verified against the included text section and paired as its
separate-reloc view. -/
theorem C4_relocation_sect_witness :
    _relocationSect tgtEx objEx2 relocSec = some 0
    ∧ (∃ r, (Section.mkSep textSec relocSec).reloc = some r
        ∧ r ∈ objEx2.sections
        ∧ _relocationSect tgtEx objEx2 r
            = some (Section.mkSep textSec relocSec).sect.index) :=
  ⟨((C4_relocation_sect tgtEx objEx2 relocSec).1 0).mpr ⟨rfl, textSec, rfl, rfl⟩,
   (C4_relocation_sect tgtEx objEx2 relocSec).2.1
     (Section.mkSep textSec relocSec) (by decide) rfl⟩

theorem writeBytes_length (d : List Nat) (off : Nat) (bs : List Nat) :
    (writeBytes d off bs).length = d.length := by
  simp [writeBytes]

theorem writeBytes_getElem_lt (d : List Nat) (off : Nat) (bs : List Nat)
    (i : Nat) (hi : i < d.length) :
    (writeBytes d off bs)[i]? =
      some (if off ≤ i ∧ i < off + bs.length then bs.getD (i - off) 0
            else d.getD i 0) := by
  rw [writeBytes, List.getElem?_map, List.getElem?_range hi]
  rfl

theorem writeBytes_getElem_ge (d : List Nat) (off : Nat) (bs : List Nat)
    (i : Nat) (hi : d.length ≤ i) : (writeBytes d off bs)[i]? = none := by
  rw [List.getElem?_eq_none]
  rw [writeBytes_length]
  exact hi

theorem natToBytesLE_length (w : Nat) : ∀ v, (natToBytesLE w v).length = w := by
  induction w with
  | zero => intro v; rfl
  | succ w ih => intro v; rw [natToBytesLE]; simp [ih]

theorem patchValue_pcrel (b1 b2 loc : Nat) (k : RelocKind) (target : Nat)
    (h : k.isPCRel = true) :
    patchValue b1 loc k target = patchValue b2 loc k target := by
  simp [patchValue, h]

theorem writeZero_getElem (d : List Nat) (szb i : Nat)
    (hle : szb ≤ d.length) (hi : i < szb) :
    (writeBytes d 0 (List.replicate szb 0))[i]? = some 0 := by
  rw [writeBytes_getElem_lt d 0 _ i (Nat.lt_of_lt_of_le hi hle)]
  have hc : 0 ≤ i ∧ i < 0 + (List.replicate szb (0 : Nat)).length := by
    simp [hi]
  rw [if_pos hc]
  simp

theorem mem_absEntries (co : CodeObject) (p : Nat × Section) (r : Reloc)
    (k : RelocKind) (hp : p ∈ _offsets co._tgt.wordSzB co._sects)
    (hr : r ∈ relocsOf p.2) (hk : co._tgt.relocKind r.type = some k)
    (hpc : k.isPCRel = false) :
    (p.1 + r.offset, k.width) ∈ absEntries co := by
  rw [absEntries]
  refine List.mem_flatMap.mpr ⟨p, hp, ?_⟩
  refine List.mem_filterMap.mpr ⟨r, hr, ?_⟩
  rw [hk]
  simp [hpc]

theorem inAbsFootprint_of_mem (co : CodeObject) (s w i : Nat)
    (hmem : (s, w) ∈ absEntries co) (h1 : s ≤ i) (h2 : i < s + w) :
    inAbsFootprint co i = true := by
  rw [inAbsFootprint]
  refine List.any_eq_true.mpr ⟨(s, w), hmem, ?_⟩
  simp [h1, h2]

theorem Agree_writeBytes (P : Nat → Prop) (d1 d2 : List Nat) (off : Nat)
    (bs1 bs2 : List Nat) (hA : Agree P d1 d2) (hlen : bs1.length = bs2.length)
    (hbs : bs1 = bs2 ∨ ∀ j < bs1.length, ¬ P (off + j)) :
    Agree P (writeBytes d1 off bs1) (writeBytes d2 off bs2) := by
  obtain ⟨hdl, hpt⟩ := hA
  refine ⟨by rw [writeBytes_length, writeBytes_length, hdl], ?_⟩
  intro i hP
  by_cases hi : i < d1.length
  · rw [writeBytes_getElem_lt d1 off bs1 i hi,
      writeBytes_getElem_lt d2 off bs2 i (hdl ▸ hi)]
    by_cases hin : off ≤ i ∧ i < off + bs1.length
    · rw [if_pos hin, if_pos (by rw [← hlen]; exact hin)]
      rcases hbs with he | hout
      · rw [he]
      · exfalso
        have hj : i - off < bs1.length := by omega
        have hoff : off + (i - off) = i := by omega
        have hPo : P (off + (i - off)) := by rw [hoff]; exact hP
        exact hout (i - off) hj hPo
    · rw [if_neg hin, if_neg (by rw [← hlen]; exact hin)]
      have hiq := hpt i hP
      congr 1
      rw [List.getD_eq_getElem?_getD, List.getD_eq_getElem?_getD, hiq]
  · rw [writeBytes_getElem_ge d1 off bs1 i (Nat.le_of_not_lt hi),
      writeBytes_getElem_ge d2 off bs2 i (by rw [← hdl]; exact Nat.le_of_not_lt hi)]

theorem Agree_resolveLoop (P : Nat → Prop) (tgt : target_info)
    (b1 b2 secOff : Nat) :
    ∀ (rs : List Reloc) (c1 c2 o1 o2 : List Nat),
      resolveLoop tgt b1 secOff rs c1 = .ok o1 →
      resolveLoop tgt b2 secOff rs c2 = .ok o2 →
      Agree P c1 c2 →
      (∀ r ∈ rs, ∀ k, tgt.relocKind r.type = some k →
        natToBytesLE k.width (patchValue b1 (secOff + r.offset) k r.target)
            = natToBytesLE k.width (patchValue b2 (secOff + r.offset) k r.target)
          ∨ ∀ j < k.width, ¬ P (secOff + r.offset + j)) →
      Agree P o1 o2 := by
  intro rs
  induction rs with
  | nil =>
    intro c1 c2 o1 o2 h1 h2 hA _
    rw [resolveLoop] at h1 h2
    simp only [Except.ok.injEq] at h1 h2
    rw [← h1, ← h2]
    exact hA
  | cons r rs ih =>
    intro c1 c2 o1 o2 h1 h2 hA hbs
    rw [resolveLoop] at h1 h2
    split at h1
    next hk => exact absurd h1 (by simp)
    next k hk =>
      simp only [hk] at h2
      refine ih _ _ _ _ h1 h2 ?_ ?_
      · refine Agree_writeBytes P c1 c2 (secOff + r.offset) _ _ hA
          (by rw [natToBytesLE_length, natToBytesLE_length]) ?_
        rcases hbs r (List.mem_cons_self r rs) k hk with he | hf
        · exact Or.inl he
        · right
          rw [natToBytesLE_length]
          exact hf
      · intro r' hr' k' hk'
        exact hbs r' (List.mem_cons_of_mem r hr') k' hk'

theorem Agree_copyLoop (P : Nat → Prop) (tgt : target_info) (b1 b2 : Nat) :
    ∀ (ps : List (Nat × Section)) (d1 d2 o1 o2 : List Nat),
      copyLoop tgt b1 ps d1 = .ok o1 →
      copyLoop tgt b2 ps d2 = .ok o2 →
      Agree P d1 d2 →
      (∀ p ∈ ps, ∀ r ∈ relocsOf p.2, ∀ k, tgt.relocKind r.type = some k →
        natToBytesLE k.width (patchValue b1 (p.1 + r.offset) k r.target)
            = natToBytesLE k.width (patchValue b2 (p.1 + r.offset) k r.target)
          ∨ ∀ j < k.width, ¬ P (p.1 + r.offset + j)) →
      Agree P o1 o2 := by
  intro ps
  induction ps with
  | nil =>
    intro d1 d2 o1 o2 h1 h2 hA _
    rw [copyLoop] at h1 h2
    simp only [Except.ok.injEq] at h1 h2
    rw [← h1, ← h2]
    exact hA
  | cons p ps ih =>
    intro d1 d2 o1 o2 h1 h2 hA hbs
    rw [copyLoop] at h1 h2
    split at h1
    next e heq1 => exact absurd h1 (by simp)
    next d1' heq1 =>
      split at h2
      next e heq2 => exact absurd h2 (by simp)
      next d2' heq2 =>
        rw [_resolveRelocs] at heq1 heq2
        have hAc : Agree P (writeBytes d1 p.1 p.2.sect.contents)
            (writeBytes d2 p.1 p.2.sect.contents) :=
          Agree_writeBytes P d1 d2 p.1 _ _ hA rfl (Or.inl rfl)
        have hA' : Agree P d1' d2' :=
          Agree_resolveLoop P tgt b1 b2 p.1 (relocsOf p.2) _ _ _ _
            heq1 heq2 hAc
            (fun r hr k hk => hbs p (List.mem_cons_self p ps) r hr k hk)
        exact ih _ _ _ _ h1 h2 hA'
          (fun p' hp' => hbs p' (List.mem_cons_of_mem p hp'))

/-- Claim C8: two `getCode` runs of the same code object against two
destinations of the same (sufficient) size produce byte-identical
content at every intra-blob-relative position outside the footprints of
destination-base-relative absolute patches; and when the two
destinations have the same base address, the produced content is
byte-identical at every intra-blob-relative position. -/
theorem C8_getCode_deterministic (co : CodeObject) (b1 b2 : Nat)
    (d1 d2 : List Nat) (c1 c2 : CodeObject) (o1 o2 : List Nat)
    (h1 : co.getCode b1 d1 = .ok (c1, o1))
    (h2 : co.getCode b2 d2 = .ok (c2, o2))
    (hlen : d1.length = d2.length) (hsz : co._szb ≤ d1.length) :
    o1.length = o2.length
    ∧ (∀ i, i < co._szb → inAbsFootprint co i = false → o1[i]? = o2[i]?)
    ∧ (b1 = b2 → ∀ i, i < co._szb → o1[i]? = o2[i]?) := by
  rw [CodeObject.getCode] at h1 h2
  split at h1
  next e heq1 => exact absurd h1 (by simp)
  next out1 heq1 =>
    split at h2
    next e heq2 => exact absurd h2 (by simp)
    next out2 heq2 =>
      simp only [Except.ok.injEq, Prod.mk.injEq] at h1 h2
      obtain ⟨-, ho1⟩ := h1
      obtain ⟨-, ho2⟩ := h2
      subst ho1
      subst ho2
      have hsz2 : co._szb ≤ d2.length := hlen ▸ hsz
      have hA0 : Agree (fun i => i < co._szb ∧ inAbsFootprint co i = false)
          (writeBytes d1 0 (List.replicate co._szb 0))
          (writeBytes d2 0 (List.replicate co._szb 0)) := by
        refine ⟨by rw [writeBytes_length, writeBytes_length, hlen], ?_⟩
        intro i hP
        rw [writeZero_getElem d1 co._szb i hsz hP.1,
          writeZero_getElem d2 co._szb i hsz2 hP.1]
      have hsteps : ∀ p ∈ _offsets co._tgt.wordSzB co._sects,
          ∀ r ∈ relocsOf p.2, ∀ k, co._tgt.relocKind r.type = some k →
          natToBytesLE k.width (patchValue b1 (p.1 + r.offset) k r.target)
              = natToBytesLE k.width (patchValue b2 (p.1 + r.offset) k r.target)
            ∨ ∀ j < k.width,
                ¬ (fun i => i < co._szb ∧ inAbsFootprint co i = false)
                  (p.1 + r.offset + j) := by
        intro p hp r hr k hk
        cases hpc : k.isPCRel with
        | true =>
          left
          rw [patchValue_pcrel b1 b2 (p.1 + r.offset) k r.target hpc]
        | false =>
          right
          intro j hj hPj
          have hm := mem_absEntries co p r k hp hr hk hpc
          have hin := inAbsFootprint_of_mem co (p.1 + r.offset) k.width
            (p.1 + r.offset + j) hm (Nat.le_add_right _ _) (by omega)
          rw [hPj.2] at hin
          exact absurd hin (by simp)
      have hAg := Agree_copyLoop
        (fun i => i < co._szb ∧ inAbsFootprint co i = false)
        co._tgt b1 b2 (_offsets co._tgt.wordSzB co._sects) _ _ _ _
        heq1 heq2 hA0 hsteps
      refine ⟨hAg.1, ?_, ?_⟩
      · intro i hi hf
        exact hAg.2 i ⟨hi, hf⟩
      · intro hb i hi
        subst hb
        have hA0' : Agree (fun i => i < co._szb)
            (writeBytes d1 0 (List.replicate co._szb 0))
            (writeBytes d2 0 (List.replicate co._szb 0)) := by
          refine ⟨by rw [writeBytes_length, writeBytes_length, hlen], ?_⟩
          intro j hPj
          rw [writeZero_getElem d1 co._szb j hsz hPj,
            writeZero_getElem d2 co._szb j hsz2 hPj]
        have hAg' := Agree_copyLoop (fun i => i < co._szb)
          co._tgt b1 b1 (_offsets co._tgt.wordSzB co._sects) _ _ _ _
          heq1 heq2 hA0'
          (fun p _ r _ k _ => Or.inl rfl)
        exact hAg'.2 i hi

/-- Witness for C8: two concrete `getCode` runs of `coEx` at bases 0 and
1000 into different destinations of size 24 agree outside the absolute
patch's footprint (for instance at position 0). -/
theorem C8_getCode_deterministic_witness :
    CodeObject.getCode coEx 0 (List.replicate 24 0)
      = .ok (coEx, [10, 11, 12, 13, 16, 0, 0, 0, 0, 0, 0, 0,
                    22, 23, 24, 25, 1, 2, 3, 4, 5, 6, 7, 8])
    ∧ CodeObject.getCode coEx 1000 (List.replicate 24 9)
      = .ok (coEx, [10, 11, 12, 13, 248, 3, 0, 0, 0, 0, 0, 0,
                    22, 23, 24, 25, 1, 2, 3, 4, 5, 6, 7, 8])
    ∧ ([10, 11, 12, 13, 16, 0, 0, 0, 0, 0, 0, 0,
        22, 23, 24, 25, 1, 2, 3, 4, 5, 6, 7, 8] : List Nat).length
        = ([10, 11, 12, 13, 248, 3, 0, 0, 0, 0, 0, 0,
            22, 23, 24, 25, 1, 2, 3, 4, 5, 6, 7, 8] : List Nat).length
    ∧ ([10, 11, 12, 13, 16, 0, 0, 0, 0, 0, 0, 0,
        22, 23, 24, 25, 1, 2, 3, 4, 5, 6, 7, 8] : List Nat)[0]?
        = ([10, 11, 12, 13, 248, 3, 0, 0, 0, 0, 0, 0,
            22, 23, 24, 25, 1, 2, 3, 4, 5, 6, 7, 8] : List Nat)[0]? := by
  have h := C8_getCode_deterministic coEx 0 1000
    (List.replicate 24 0) (List.replicate 24 9) coEx coEx
    [10, 11, 12, 13, 16, 0, 0, 0, 0, 0, 0, 0,
     22, 23, 24, 25, 1, 2, 3, 4, 5, 6, 7, 8]
    [10, 11, 12, 13, 248, 3, 0, 0, 0, 0, 0, 0,
     22, 23, 24, 25, 1, 2, 3, 4, 5, 6, 7, 8]
    rfl rfl rfl (by decide)
  exact ⟨rfl, rfl, h.1, h.2.1 0 (by decide) (by decide)⟩

end CodeObj
